import Mathlib

/-!
Shallow embedding of the pillar-slackbot repository for specification checking.

Part 1 models the agent orchestrator `AgentService.run`
(src/services/agent_service.py).  The external model API is represented by a
scripted sequence of responses (one response per model call, indexed by the
number of calls already made), executors are arbitrary functions returning
either a result string or a raised-exception message (`Except`), and the
transcript of messages is tracked explicitly.  Python string slicing
`s[:50000]` is embedded as `strTake 50000`.
-/

/-- Python slice `s[:n]`: the first `n` characters of `s`. -/
def strTake (n : Nat) (s : String) : String := String.mk (s.data.take n)

inductive Role where
  | user
  | assistant
deriving DecidableEq, Repr

/-- A `tool_use` content block of a model response. -/
structure ToolUseBlock (ι : Type) where
  id : String
  name : String
  input : ι
deriving DecidableEq, Repr

/-- A content block of a model response: a text block (has a `.text`
attribute) or a tool-use block (has `.type == "tool_use"`). -/
inductive ContentBlock (ι : Type) where
  | text (s : String)
  | toolUse (tu : ToolUseBlock ι)
deriving DecidableEq, Repr

/-- `[block for block in response.content if block.type == "tool_use"]` -/
def toolUsesOf {ι : Type} (blocks : List (ContentBlock ι)) : List (ToolUseBlock ι) :=
  blocks.filterMap (fun b =>
    match b with
    | ContentBlock.toolUse tu => some tu
    | ContentBlock.text _ => none)

/-- `for block in response.content: if hasattr(block, "text"): return block.text`
(the first text block's text, if any). -/
def firstText? {ι : Type} : List (ContentBlock ι) → Option String
  | [] => none
  | ContentBlock.text s :: _ => some s
  | ContentBlock.toolUse _ :: rest => firstText? rest

/-- One entry of the `tool_results` list (a `tool_result` dict). -/
structure ToolResult where
  tool_use_id : String
  content : String
deriving DecidableEq, Repr

inductive MsgContent (ι : Type) where
  | text (s : String)
  | blocks (bs : List (ContentBlock ι))
  | toolResults (rs : List ToolResult)
deriving DecidableEq, Repr

/-- One element of the `messages` list passed to the model API. -/
structure Message (ι : Type) where
  role : Role
  content : MsgContent ι
deriving DecidableEq, Repr

/-- The fields of the `context` dict that `AgentService.run` itself reads
(handlers/mentions.py builds it; executors may read further fields, which the
orchestrator treats as opaque). `none`/empty model absent-or-falsy values. -/
structure AgentContext where
  channel_id : Option String
  user_id : Option String
  has_files : Bool
  file_names : List String
  urls : List String
  parent_message : Option String
deriving DecidableEq, Repr

/-- `tool_executors`: a dict from tool name to executor. An executor returns a
string or raises (modelled as `Except.error` carrying `str(e)`). -/
abbrev Executors (ι : Type) : Type :=
  String → Option (ι → AgentContext → Except String String)

/-- Lines 239-251 of agent_service.py: execute one tool call and build its
`tool_result` entry (unknown tool and raised exception become in-band text;
the content is truncated with `result[:50000]`). -/
def toolResultFor {ι : Type} (ex : Executors ι) (ctx : AgentContext)
    (tu : ToolUseBlock ι) : ToolResult :=
  let result :=
    match ex tu.name with
    | some exec =>
        match exec tu.input ctx with
        | Except.ok r => r
        | Except.error e => "Error: " ++ e
    | none => "Tool \x27" ++ tu.name ++ "\x27 is not available."
  { tool_use_id := tu.id, content := strTake 50000 result }

/-- Fallback returned when an in-loop response has no tool uses and no text
block. -/
def noAnswerFallback : String := "I couldn\x27t find the information you need."

/-- Fallback returned when the forced-answer response has no text block. -/
def forcedAnswerFallback : String :=
  "I gathered some information but couldn\x27t formulate a complete answer."

/-- The user message appended when `max_steps` is exhausted. -/
def forcedAnswerPrompt : String :=
  "Please provide your final answer based on the information gathered so far."

/-- Result of a run: the returned text, one flag per model call made (`true`
iff the call was made with `tools=TOOLS`), and the final `messages` list. -/
structure RunResult (ι : Type) where
  answer : String
  calls : List Bool
  messages : List (Message ι)
deriving DecidableEq, Repr

/-- The two messages appended per loop step (lines 253-255): the assistant's
raw response content, then a user turn carrying all tool results in order. -/
def stepMessages {ι : Type} (ex : Executors ι) (ctx : AgentContext)
    (response : List (ContentBlock ι)) : List (Message ι) :=
  [{ role := Role.assistant, content := MsgContent.blocks response },
   { role := Role.user,
     content := MsgContent.toolResults ((toolUsesOf response).map (toolResultFor ex ctx)) }]

/-- The `for step in range(max_steps)` loop of `AgentService.run` (lines
210-274), with the post-loop forced-answer call at fuel 0.  `script k` is the
content of the response to the `k`-th model call; `calls` accumulates the
tools-enabled flag of each call made so far. -/
def runLoop {ι : Type} (script : Nat → List (ContentBlock ι)) (ex : Executors ι)
    (ctx : AgentContext) : Nat → List Bool → List (Message ι) → RunResult ι
  | 0, calls, messages =>
      let messages2 := messages ++
        [{ role := Role.user, content := MsgContent.text forcedAnswerPrompt }]
      let response := script calls.length
      { answer := (firstText? response).getD forcedAnswerFallback,
        calls := calls ++ [false],
        messages := messages2 }
  | fuel + 1, calls, messages =>
      let response := script calls.length
      match toolUsesOf response with
      | [] =>
          { answer := (firstText? response).getD noAnswerFallback,
            calls := calls ++ [true],
            messages := messages }
      | _ :: _ =>
          runLoop script ex ctx fuel (calls ++ [true])
            (messages ++ stepMessages ex ctx response)

/-- Lines 186-195: the `context_parts` list (Python truthiness: an empty
string or empty list contributes nothing). -/
def contextParts (ctx : AgentContext) : List String :=
  (match ctx.parent_message with
   | some p =>
       if p = "" then []
       else ["User is replying to this message: \"" ++ p ++ "\""]
   | none => []) ++
  (if ctx.has_files then
     ["Files attached: " ++ String.intercalate ", " ctx.file_names]
   else []) ++
  (if ctx.urls.isEmpty then []
   else ["URLs in message: " ++ String.intercalate ", " ctx.urls])

/-- Line 195: `context_str`. -/
def contextStr (ctx : AgentContext) : String :=
  let ps := contextParts ctx
  if ps.isEmpty then "No files or URLs in the current message."
  else String.intercalate "\n" ps

/-- Lines 197-207: the initial user message content. -/
def initialUserContent (ctx : AgentContext) (user_message : String) : String :=
  "Current context:\n" ++ contextStr ctx ++ "\n\nUser\x27s request: " ++
    user_message ++
    "\n\nUse the available tools to gather information and answer the request. You can call multiple tools if needed."

/-- `AgentService.run` (src/services/agent_service.py lines 163-274).  The
`on_status` callback is pure I/O and affects nothing observable, so it is not
modelled. -/
def AgentService.run {ι : Type} (script : Nat → List (ContentBlock ι))
    (ex : Executors ι) (ctx : AgentContext) (user_message : String)
    (max_steps : Nat) : RunResult ι :=
  runLoop script ex ctx max_steps []
    [{ role := Role.user, content := MsgContent.text (initialUserContent ctx user_message) }]

/-- Roles of a transcript, in order. -/
def rolesOf {ι : Type} (msgs : List (Message ι)) : List Role :=
  msgs.map Message.role

/-- An empty context (a mention with no files, no URLs, no thread parent). -/
def ctx0 : AgentContext :=
  { channel_id := none, user_id := none, has_files := false,
    file_names := [], urls := [], parent_message := none }

/-!
Part 2 models the persistence layer (src/database.py) and the agenda-related
handlers: the slash-command handler `handle_agenda`
(src/handlers/commands.py lines 167-260) and the agent tool executors
`execute_add_to_agenda` / `execute_view_agenda`
(src/handlers/mentions.py lines 147-191).  SQLite tables become lists; the
AUTOINCREMENT id column becomes an explicit `nextId` counter; `datetime.now()`
and external API results (Google OAuth validity, document creation, model
text generation) become explicit parameters.
-/

/-- One row of the `agenda_items` table. -/
structure AgendaItem where
  id : Nat
  user_id : String
  channel_id : String
  category : String
  content : String
  included_in_doc : Bool
deriving DecidableEq, Repr

/-- The `agenda_items` table with its AUTOINCREMENT counter. -/
structure AgendaTable where
  items : List AgendaItem
  nextId : Nat
deriving DecidableEq, Repr

/-- One row of the `google_tokens` table (timestamps as strings). -/
structure GoogleToken where
  access_token : String
  refresh_token : String
  token_expiry : String
deriving DecidableEq, Repr

/-- The four tables created by `init_db`. -/
structure DBState where
  user_settings : List (String × String)
  google_tokens : List (String × GoogleToken)
  agenda : AgendaTable
  summary_cache : List ((String × String × String) × String)
deriving DecidableEq, Repr

/-- `INSERT ... ON CONFLICT(key) DO UPDATE`: update the row in place if the
key exists, else append a fresh row. -/
def upsertAssoc {α β : Type} [DecidableEq α] (k : α) (v : β) (l : List (α × β)) :
    List (α × β) :=
  if l.any (fun p => p.1 = k) then
    l.map (fun p => if p.1 = k then (k, v) else p)
  else l ++ [(k, v)]

/-- `INSERT OR REPLACE`: delete any conflicting row, then insert. -/
def replaceAssoc {α β : Type} [DecidableEq α] (k : α) (v : β) (l : List (α × β)) :
    List (α × β) :=
  l.filter (fun p => ¬ p.1 = k) ++ [(k, v)]

/-- `save_user_last_active` (database.py lines 75-85); `now` stands for
`datetime.now()`. -/
def save_user_last_active (db : DBState) (user_id now : String) : DBState :=
  { db with user_settings := upsertAssoc user_id now db.user_settings }

/-- `get_user_last_active` (database.py lines 88-97). -/
def get_user_last_active (db : DBState) (user_id : String) : Option String :=
  db.user_settings.lookup user_id

/-- `save_google_token` (database.py lines 100-114). -/
def save_google_token (db : DBState) (user_id : String) (tok : GoogleToken) : DBState :=
  { db with google_tokens := upsertAssoc user_id tok db.google_tokens }

/-- `get_google_token` (database.py lines 117-133). -/
def get_google_token (db : DBState) (user_id : String) : Option GoogleToken :=
  db.google_tokens.lookup user_id

/-- `add_agenda_item` (database.py lines 136-145): INSERT with
`included_in_doc` defaulting to 0 and an AUTOINCREMENT id. -/
def add_agenda_item (db : DBState) (user_id channel_id category content : String) :
    DBState :=
  { db with agenda :=
      { items := db.agenda.items ++
          [{ id := db.agenda.nextId, user_id := user_id, channel_id := channel_id,
             category := category, content := content, included_in_doc := false }],
        nextId := db.agenda.nextId + 1 } }

/-- Stable insertion (left-to-right fold) realising
`ORDER BY category, created_at`: rows with equal categories keep their
insertion (= creation) order, which AUTOINCREMENT ids make chronological. -/
def insertByCategory (a : AgendaItem) : List AgendaItem → List AgendaItem
  | [] => [a]
  | b :: rest =>
      if a.category < b.category then a :: b :: rest
      else b :: insertByCategory a rest

/-- `get_pending_agenda_items` (database.py lines 148-159):
`WHERE included_in_doc = 0 ORDER BY category, created_at`. -/
def get_pending_agenda_items (db : DBState) : List AgendaItem :=
  (db.agenda.items.filter (fun i => !i.included_in_doc)).foldl
    (fun acc i => insertByCategory i acc) []

/-- `mark_agenda_items_included` (database.py lines 162-171). -/
def mark_agenda_items_included (db : DBState) (item_ids : List Nat) : DBState :=
  { db with agenda :=
      { db.agenda with items := db.agenda.items.map (fun i =>
          if item_ids.contains i.id then { i with included_in_doc := true } else i) } }

/-- `cache_summary` (database.py lines 174-184). -/
def cache_summary (db : DBState) (channel_id period_start period_end summary : String) :
    DBState :=
  { db with summary_cache :=
      replaceAssoc (channel_id, period_start, period_end) summary db.summary_cache }

/-- `get_cached_summary` (database.py lines 187-197). -/
def get_cached_summary (db : DBState) (channel_id period_start period_end : String) :
    Option String :=
  db.summary_cache.lookup (channel_id, period_start, period_end)

/-- The state-changing operations exposed by the database layer
(src/database.py).  The `get_*` functions are pure reads and change nothing;
`init_db` only issues `CREATE TABLE IF NOT EXISTS`, mutating no rows. -/
inductive DBOp where
  | initDb
  | saveUserLastActive (user_id now : String)
  | saveGoogleToken (user_id : String) (tok : GoogleToken)
  | addAgendaItem (user_id channel_id category content : String)
  | markAgendaItemsIncluded (item_ids : List Nat)
  | cacheSummary (channel_id period_start period_end summary : String)
deriving DecidableEq, Repr

/-- Effect of each database-layer operation on the state. -/
def applyOp : DBOp → DBState → DBState
  | DBOp.initDb, db => db
  | DBOp.saveUserLastActive u now, db => save_user_last_active db u now
  | DBOp.saveGoogleToken u tok, db => save_google_token db u tok
  | DBOp.addAgendaItem u ch cat c, db => add_agenda_item db u ch cat c
  | DBOp.markAgendaItemsIncluded ids, db => mark_agenda_items_included db ids
  | DBOp.cacheSummary ch ps pe s, db => cache_summary db ch ps pe s

/-- `is_user_authenticated` (google_service.py lines 185-188): false when no
token row is stored; otherwise `credentials.valid`, an external check
abstracted as `validOracle`. -/
def is_user_authenticated (validOracle : String → Bool) (db : DBState)
    (user_id : String) : Bool :=
  match get_google_token db user_id with
  | none => false
  | some _ => validOracle user_id

/-- Python `str.lower()` (ASCII as used by the handlers). -/
def pyLower (s : String) : String := String.mk (s.data.map Char.toLower)

/-- Helper for `pySplitMax1`: drop leading whitespace. -/
def dropLeadingWS : List Char → List Char
  | [] => []
  | c :: cs => if c.isWhitespace then dropLeadingWS cs else c :: cs

/-- Helper for `pySplitMax1`: split at the first whitespace. -/
def takeToken : List Char → List Char × List Char
  | [] => ([], [])
  | c :: cs =>
      if c.isWhitespace then ([], c :: cs)
      else
        let (t, r) := takeToken cs
        (c :: t, r)

/-- Python `s.split(maxsplit=1)`: at most two parts, splitting on runs of
whitespace and discarding leading/separating whitespace (an all-whitespace
string yields `[]`). -/
def pySplitMax1 (s : String) : List String :=
  match dropLeadingWS s.data with
  | [] => []
  | c :: cs =>
      let (tok, rest) := takeToken (c :: cs)
      match dropLeadingWS rest with
      | [] => [String.mk tok]
      | r => [String.mk tok, String.mk r]

/-- The responses a handler can emit through `respond`/`say`, one constructor
per `MessageFormatter` entry point or plain-text reply used by
`handle_agenda`. -/
inductive Resp where
  | loading (s : String)
  | error (s : String)
  | authPrompt (auth_url : String)
  | agendaConfirmation (category content : String)
  | docCreated (title url : String)
  | text (s : String)
  | agendaPrompt
deriving DecidableEq, Repr

/-- A created Google Doc (`doc["title"]`, `doc["url"]`). -/
structure Doc where
  title : String
  url : String
deriving DecidableEq, Repr

/-- The category alias map of the slash add path
(commands.py lines 188-196). -/
def category_map : List (String × String) :=
  [("investment", "Investment Decisions"),
   ("decision", "Investment Decisions"),
   ("pipeline", "Pipeline Review"),
   ("deal", "Pipeline Review"),
   ("portfolio", "Portfolio Company Updates"),
   ("company", "Portfolio Company Updates"),
   ("other", "Other Business")]

/-- `category_map.get(category_input, "Other Business")`
(commands.py line 197). -/
def slashCategory (category_input : String) : String :=
  (category_map.lookup category_input).getD "Other Business"

/-- Python dict grouping `by_category` (insertion-ordered keys, items
appended in traversal order), shared by both view paths. -/
def groupByCategory (items : List AgendaItem) : List (String × List AgendaItem) :=
  items.foldl (fun acc it =>
    if acc.any (fun p => p.1 = it.category) then
      acc.map (fun p => if p.1 = it.category then (p.1, p.2 ++ [it]) else p)
    else acc ++ [(it.category, [it])]) []

/-- The `/pillar agenda view` text body (commands.py lines 241-254). -/
def slashViewText (items : List AgendaItem) : String :=
  (groupByCategory items).foldl
    (fun text p =>
      text ++ "*" ++ p.1 ++ "*\n" ++
        (p.2.foldl (fun t it => t ++ "  - " ++ it.content ++ "\n") "") ++ "\n")
    "*Pending Agenda Items:*\n\n"

/-- `handle_agenda` (commands.py lines 167-260).  External collaborators are
parameters: `validOracle` for Google credential validity, `genAgenda` for
`claude.generate_meeting_agenda`, `createDoc` for
`google.create_meeting_agenda_doc`, `authUrlGen` for `google.get_auth_url`.
Returns the emitted responses in order and the updated database state. -/
def handle_agenda (validOracle : String → Bool)
    (genAgenda : List AgendaItem → String)
    (createDoc : String → String → Option Doc)
    (authUrlGen : String → String → String)
    (channel_id user_id args : String) (db : DBState) : List Resp × DBState :=
  let parts := pySplitMax1 args
  let subcommand := pyLower ((parts.headD ""))
  let sub_args := (parts.drop 1).headD ""
  if subcommand = "add" then
    match pySplitMax1 sub_args with
    | category_input :: content :: _ =>
        let category := slashCategory (pyLower category_input)
        ([Resp.agendaConfirmation category content],
         add_agenda_item db user_id channel_id category content)
    | _ =>
        ([Resp.error
            "Usage: `/pillar agenda add [category] [item]`\nCategories: investment, pipeline, portfolio, other"],
         db)
  else if subcommand = "finalize" then
    let r0 := Resp.loading "Generating Monday meeting agenda"
    if !is_user_authenticated validOracle db user_id then
      ([r0, Resp.authPrompt (authUrlGen user_id "http://localhost:8080/oauth/callback")],
       db)
    else
      let items := get_pending_agenda_items db
      if items.isEmpty then
        ([r0, Resp.error
            "No agenda items to include. Add items with `/pillar agenda add`"], db)
      else
        match createDoc user_id (genAgenda items) with
        | some doc =>
            ([r0, Resp.docCreated doc.title doc.url],
             mark_agenda_items_included db (items.map (fun i => i.id)))
        | none =>
            ([r0, Resp.error
                "Failed to create Google Doc. Please check your Google connection."], db)
  else if subcommand = "view" then
    let items := get_pending_agenda_items db
    if items.isEmpty then
      ([Resp.text "No pending agenda items. Add items with `/pillar agenda add`"], db)
    else
      ([Resp.text (slashViewText items)], db)
  else
    ([Resp.agendaPrompt], db)

/-- The structured input of the `add_to_agenda` tool (`tool_input.get`
defaults apply when a field is absent). -/
structure AddInput where
  content : Option String
  category : Option String
deriving DecidableEq, Repr

/-- The category enum declared in the `add_to_agenda` tool schema
(agent_service.py line 24) and revalidated by the executor
(mentions.py line 158). -/
def valid_categories : List String :=
  ["Investment Decisions", "Pipeline", "Portfolio Updates", "Other"]

/-- `execute_add_to_agenda` (mentions.py lines 147-165): coerce an
out-of-enum category to "Other", store the item, return confirmation text. -/
def execute_add_to_agenda (tool_input : AddInput) (ctx : AgentContext)
    (db : DBState) : String × DBState :=
  let content := tool_input.content.getD ""
  let category := tool_input.category.getD "Other"
  let user_id := ctx.user_id.getD "unknown"
  let channel_id := ctx.channel_id.getD "unknown"
  if content = "" then ("No content provided for the agenda item.", db)
  else
    let category := if valid_categories.contains category then category else "Other"
    let db2 := add_agenda_item db user_id channel_id category content
    ("Added to Monday agenda under \x27" ++ category ++ "\x27: " ++ content, db2)

/-- The lines of the `execute_view_agenda` output for a non-empty pending
list (mentions.py lines 183-189): only the four schema categories are
rendered, in that fixed order. -/
def agendaViewLines (items : List AgendaItem) : List String :=
  ["Current Monday Investment Review Agenda:", ""] ++
    (["Investment Decisions", "Pipeline", "Portfolio Updates", "Other"].foldl
      (fun acc category =>
        match (groupByCategory items).lookup category with
        | some group =>
            acc ++ [category ++ ":"] ++
              group.map (fun it => "  - " ++ it.content) ++ [""]
        | none => acc) [])

/-- `execute_view_agenda` (mentions.py lines 167-191). -/
def execute_view_agenda (db : DBState) : String :=
  let items := get_pending_agenda_items db
  if items.isEmpty then "The Monday agenda is empty. No items have been added yet."
  else String.intercalate "\n" (agendaViewLines items)

/-- An empty database (fresh `init_db` result; AUTOINCREMENT starts at 1). -/
def emptyDB : DBState :=
  { user_settings := [], google_tokens := [],
    agenda := { items := [], nextId := 1 }, summary_cache := [] }

/-!
Part 3: concrete instances used by witnesses and counterexamples.
-/

/-- An empty executor map (no registered tools). -/
def exNone : Executors Unit := fun _ => none

/-- A script whose every response is a single text block. -/
def scriptText : Nat → List (ContentBlock Unit) :=
  fun _ => [ContentBlock.text "done"]

/-- A script whose every response requests one unregistered tool. -/
def scriptCx : Nat → List (ContentBlock Unit) :=
  fun _ => [ContentBlock.toolUse { id := "toolu_1", name := "mystery_tool", input := () }]

/-- A 50000-character exception message. -/
def bigErr : String := String.mk (List.replicate 50000 'a')

/-- An executor map whose tool "boom" raises with message `bigErr`. -/
def exBoom : Executors Unit :=
  fun n => if n = "boom" then some (fun _ _ => Except.error bigErr) else none

/-- A tool-use block requesting "boom". -/
def tuBoom : ToolUseBlock Unit := { id := "toolu_2", name := "boom", input := () }

/-- An executor map whose tool "bad" raises with a short message. -/
def exKaput : Executors Unit :=
  fun n => if n = "bad" then some (fun _ _ => Except.error "kaput") else none

/-- A tool-use block requesting "bad". -/
def tuBad : ToolUseBlock Unit := { id := "toolu_3", name := "bad", input := () }

/-- An executor map whose tool "echo" returns a short string. -/
def exEcho : Executors Unit :=
  fun n => if n = "echo" then some (fun _ _ => Except.ok "tool output") else none

/-- A tool-use block requesting "echo". -/
def tuEcho : ToolUseBlock Unit := { id := "toolu_4", name := "echo", input := () }

/-- A tool-use block requesting an unregistered tool. -/
def tuGhost : ToolUseBlock Unit := { id := "toolu_5", name := "ghost", input := () }

/-- A database holding one pending item stored by the slash add path under
"Pipeline Review". -/
def dbPipeline : DBState :=
  add_agenda_item emptyDB "U1" "C1" "Pipeline Review" "Intro from Partner X"

/-!
Part 4: helper lemmas about the agent loop.
-/

theorem strTake_of_le {n : Nat} (s : String) (h : s.length ≤ n) : strTake n s = s := by
  cases s with
  | mk l =>
      simp only [String.length_mk] at h
      simp [strTake, List.take_of_length_le h]

theorem strTake_length_le (n : Nat) (s : String) : (strTake n s).length ≤ n := by
  cases s with
  | mk l => simp [strTake, Nat.min_le_left]

theorem runLoop_calls {ι : Type} (script : Nat → List (ContentBlock ι))
    (ex : Executors ι) (ctx : AgentContext) :
    ∀ (fuel : Nat) (calls : List Bool) (messages : List (Message ι)),
      (runLoop script ex ctx fuel calls messages).calls.length ≤ calls.length + fuel + 1 ∧
      ((∀ b ∈ calls, b = true) →
        ∀ b ∈ (runLoop script ex ctx fuel calls messages).calls.dropLast, b = true) ∧
      ((runLoop script ex ctx fuel calls messages).calls.length = calls.length + fuel + 1 →
        (runLoop script ex ctx fuel calls messages).calls.getLast? = some false ∧
        (runLoop script ex ctx fuel calls messages).answer =
          (firstText? (script (calls.length + fuel))).getD forcedAnswerFallback) := by
  intro fuel
  induction fuel with
  | zero =>
      intro calls messages
      refine ⟨?_, ?_, ?_⟩
      · simp [runLoop]
      · intro hc
        simp only [runLoop, List.dropLast_concat]
        exact hc
      · intro _
        constructor
        · simp [runLoop]
        · simp [runLoop]
  | succ fuel ih =>
      intro calls messages
      rcases htu : toolUsesOf (script calls.length) with _ | ⟨tu, tus⟩
      · refine ⟨?_, ?_, ?_⟩
        · simp [runLoop, htu]
        · intro hc
          simp only [runLoop, htu, List.dropLast_concat]
          exact hc
        · intro hlen
          simp [runLoop, htu] at hlen
      · have harl : runLoop script ex ctx (fuel + 1) calls messages =
            runLoop script ex ctx fuel (calls ++ [true])
              (messages ++ stepMessages ex ctx (script calls.length)) := by
          simp [runLoop, htu]
        obtain ⟨ih1, ih2, ih3⟩ :=
          ih (calls ++ [true]) (messages ++ stepMessages ex ctx (script calls.length))
        have hl : (calls ++ [true]).length = calls.length + 1 := by simp
        refine ⟨?_, ?_, ?_⟩
        · rw [harl]
          omega
        · intro hc
          rw [harl]
          apply ih2
          intro b hb
          rcases List.mem_append.mp hb with hb | hb
          · exact hc b hb
          · simpa using hb
        · intro hlen
          rw [harl] at hlen ⊢
          have heq : (calls ++ [true]).length + fuel = calls.length + (fuel + 1) := by
            simp; omega
          rw [heq] at ih3
          exact ih3 (by omega)

theorem rolesOf_append {ι : Type} (l₁ l₂ : List (Message ι)) :
    rolesOf (l₁ ++ l₂) = rolesOf l₁ ++ rolesOf l₂ := by
  simp [rolesOf]

theorem runLoop_roles {ι : Type} (script : Nat → List (ContentBlock ι))
    (ex : Executors ι) (ctx : AgentContext) :
    ∀ (fuel : Nat) (calls : List Bool) (messages : List (Message ι)),
      List.Chain' (fun a b => a ≠ b) (rolesOf messages) →
      (rolesOf messages).getLast? = some Role.user →
      (List.Chain' (fun a b => a ≠ b)
          (rolesOf (runLoop script ex ctx fuel calls messages).messages) ∧
        (rolesOf (runLoop script ex ctx fuel calls messages).messages).getLast? =
          some Role.user ∧
        (runLoop script ex ctx fuel calls messages).calls.length ≤ calls.length + fuel) ∨
      (∃ pre, (runLoop script ex ctx fuel calls messages).messages =
          pre ++ [{ role := Role.user, content := MsgContent.text forcedAnswerPrompt }] ∧
        List.Chain' (fun a b => a ≠ b) (rolesOf pre) ∧
        (rolesOf pre).getLast? = some Role.user ∧
        (runLoop script ex ctx fuel calls messages).calls.length =
          calls.length + fuel + 1) := by
  intro fuel
  induction fuel with
  | zero =>
      intro calls messages hch hlast
      right
      refine ⟨messages, ?_, hch, hlast, ?_⟩
      · simp [runLoop]
      · simp [runLoop]
  | succ fuel ih =>
      intro calls messages hch hlast
      rcases htu : toolUsesOf (script calls.length) with _ | ⟨tu, tus⟩
      · left
        refine ⟨?_, ?_, ?_⟩
        · simpa [runLoop, htu] using hch
        · simpa [runLoop, htu] using hlast
        · simp [runLoop, htu]
      · have harl : runLoop script ex ctx (fuel + 1) calls messages =
            runLoop script ex ctx fuel (calls ++ [true])
              (messages ++ stepMessages ex ctx (script calls.length)) := by
          simp [runLoop, htu]
        have hroles : rolesOf (stepMessages ex ctx (script calls.length)) =
            [Role.assistant, Role.user] := rfl
        have hch2 : List.Chain' (fun a b => a ≠ b)
            (rolesOf (messages ++ stepMessages ex ctx (script calls.length))) := by
          rw [rolesOf_append]
          refine List.Chain'.append hch ?_ ?_
          · rw [hroles]
            simp [List.chain'_cons, List.chain'_singleton]
          · intro x hx y hy
            rw [hroles] at hy
            rw [hlast] at hx
            simp only [Option.mem_def, Option.some.injEq, List.head?_cons] at hx hy
            subst hx
            subst hy
            decide
        have hlast2 : (rolesOf (messages ++ stepMessages ex ctx (script calls.length))).getLast? =
            some Role.user := by
          rw [rolesOf_append]
          simp [rolesOf, stepMessages]
        rcases ih (calls ++ [true]) (messages ++ stepMessages ex ctx (script calls.length))
            hch2 hlast2 with ⟨h1, h2, h3⟩ | ⟨pre, h1, h2, h3, h4⟩
        · left
          rw [harl]
          refine ⟨h1, h2, ?_⟩
          simp at h3
          omega
        · right
          rw [harl]
          refine ⟨pre, h1, h2, h3, ?_⟩
          simp at h4
          omega

/-!
Part 5: claim theorems about the agent orchestrator.
-/

/-- C1: For every step budget N ≥ 1, every scripted sequence of model
responses, and every executor map, `AgentService.run` terminates (it is a
total function defined by structural recursion on the budget) and makes at
most N model calls plus at most one additional forced-answer call: every
call but possibly the last is made with tools enabled, and when the
(N+1)-st call happens it is the forced call with tools disabled, returning
its first text block's text or the fixed fallback string. -/
theorem agent_run_call_budget {ι : Type} (script : Nat → List (ContentBlock ι))
    (ex : Executors ι) (ctx : AgentContext) (user_message : String) (N : Nat)
    (hN : 1 ≤ N) :
    (AgentService.run script ex ctx user_message N).calls.length ≤ N + 1 ∧
    (∀ b ∈ (AgentService.run script ex ctx user_message N).calls.dropLast, b = true) ∧
    ((AgentService.run script ex ctx user_message N).calls.length = N + 1 →
      (AgentService.run script ex ctx user_message N).calls.getLast? = some false ∧
      (AgentService.run script ex ctx user_message N).answer =
        (firstText? (script N)).getD forcedAnswerFallback) := by
  obtain ⟨h1, h2, h3⟩ := runLoop_calls script ex ctx N []
    [{ role := Role.user, content := MsgContent.text (initialUserContent ctx user_message) }]
  refine ⟨?_, ?_, ?_⟩
  · simpa [AgentService.run] using h1
  · intro b hb
    exact h2 (by simp) b (by simpa [AgentService.run] using hb)
  · intro hlen
    have h := h3 (by simpa [AgentService.run] using hlen)
    constructor
    · simpa [AgentService.run] using h.1
    · simpa [AgentService.run] using h.2

/-- Witness for C1 at a concrete script, executor map and budget. -/
theorem agent_run_call_budget_witness :
    (AgentService.run scriptText exNone ctx0 "hi" 1).calls.length ≤ 1 + 1 ∧
    (∀ b ∈ (AgentService.run scriptText exNone ctx0 "hi" 1).calls.dropLast, b = true) ∧
    ((AgentService.run scriptText exNone ctx0 "hi" 1).calls.length = 1 + 1 →
      (AgentService.run scriptText exNone ctx0 "hi" 1).calls.getLast? = some false ∧
      (AgentService.run scriptText exNone ctx0 "hi" 1).answer =
        (firstText? (scriptText 1)).getD forcedAnswerFallback) :=
  agent_run_call_budget scriptText exNone ctx0 "hi" 1 (by decide)

/-- C3: If the model's first response contains no tool-use blocks, exactly
one model call is made and the text of the first text block of that response
is returned verbatim (the fixed fallback string being returned only when no
text block exists). -/
theorem agent_plain_first_response {ι : Type} (script : Nat → List (ContentBlock ι))
    (ex : Executors ι) (ctx : AgentContext) (user_message : String) (N : Nat)
    (hN : 1 ≤ N) (h0 : toolUsesOf (script 0) = []) :
    (AgentService.run script ex ctx user_message N).calls.length = 1 ∧
    (AgentService.run script ex ctx user_message N).answer =
      (firstText? (script 0)).getD noAnswerFallback := by
  obtain ⟨M, rfl⟩ : ∃ M, N = M + 1 := ⟨N - 1, by omega⟩
  constructor
  · simp [AgentService.run, runLoop, h0]
  · simp [AgentService.run, runLoop, h0]

/-- Witness for C3 at a concrete one-text-block script. -/
theorem agent_plain_first_response_witness :
    (AgentService.run scriptText exNone ctx0 "hi" 1).calls.length = 1 ∧
    (AgentService.run scriptText exNone ctx0 "hi" 1).answer =
      (firstText? (scriptText 0)).getD noAnswerFallback :=
  agent_plain_first_response scriptText exNone ctx0 "hi" 1 (by decide) rfl

/-- C4: A tool-use block whose name has no entry in the executor map raises
nothing (the run is a total function): its Tool Result carries the block's
id and the text naming the tool as unavailable (truncated like every tool
result, the identity for any message within the 50000 bound), and the loop
proceeds to the next step whenever a response contains tool uses. -/
theorem agent_unknown_tool {ι : Type} (ex : Executors ι) (ctx : AgentContext)
    (tu : ToolUseBlock ι) (h : ex tu.name = none) :
    toolResultFor ex ctx tu =
      { tool_use_id := tu.id,
        content := strTake 50000 ("Tool \x27" ++ tu.name ++ "\x27 is not available.") } ∧
    (("Tool \x27" ++ tu.name ++ "\x27 is not available.").length ≤ 50000 →
      (toolResultFor ex ctx tu).content =
        "Tool \x27" ++ tu.name ++ "\x27 is not available.") ∧
    (∀ (script : Nat → List (ContentBlock ι)) (fuel : Nat) (calls : List Bool)
        (messages : List (Message ι)),
      toolUsesOf (script calls.length) ≠ [] →
      runLoop script ex ctx (fuel + 1) calls messages =
        runLoop script ex ctx fuel (calls ++ [true])
          (messages ++ stepMessages ex ctx (script calls.length))) := by
  have hc : toolResultFor ex ctx tu =
      { tool_use_id := tu.id,
        content := strTake 50000 ("Tool \x27" ++ tu.name ++ "\x27 is not available.") } := by
    simp [toolResultFor, h]
  refine ⟨hc, ?_, ?_⟩
  · intro hle
    rw [hc]
    exact strTake_of_le _ hle
  · intro script fuel calls messages hne
    rcases htu : toolUsesOf (script calls.length) with _ | ⟨a, l⟩
    · exact absurd htu hne
    · simp [runLoop, htu]

/-- Witness for C4 at a concrete unregistered tool. -/
theorem agent_unknown_tool_witness :
    toolResultFor exNone ctx0 tuGhost =
      { tool_use_id := tuGhost.id,
        content := strTake 50000 ("Tool \x27" ++ tuGhost.name ++ "\x27 is not available.") } ∧
    (("Tool \x27" ++ tuGhost.name ++ "\x27 is not available.").length ≤ 50000 →
      (toolResultFor exNone ctx0 tuGhost).content =
        "Tool \x27" ++ tuGhost.name ++ "\x27 is not available.") ∧
    (∀ (script : Nat → List (ContentBlock Unit)) (fuel : Nat) (calls : List Bool)
        (messages : List (Message Unit)),
      toolUsesOf (script calls.length) ≠ [] →
      runLoop script exNone ctx0 (fuel + 1) calls messages =
        runLoop script exNone ctx0 fuel (calls ++ [true])
          (messages ++ stepMessages exNone ctx0 (script calls.length))) :=
  agent_unknown_tool exNone ctx0 tuGhost rfl

/-- C6: For every executor output string, the Tool Result content recorded
by the loop is the 50000-character truncation of that output: its length is
at most 50000, and it equals the output whenever the output is within that
bound. -/
theorem agent_tool_result_truncation {ι : Type} (ex : Executors ι)
    (ctx : AgentContext) (tu : ToolUseBlock ι)
    (f : ι → AgentContext → Except String String) (r : String)
    (hf : ex tu.name = some f) (hr : f tu.input ctx = Except.ok r) :
    (toolResultFor ex ctx tu).tool_use_id = tu.id ∧
    (toolResultFor ex ctx tu).content = strTake 50000 r ∧
    (toolResultFor ex ctx tu).content.length ≤ 50000 ∧
    (r.length ≤ 50000 → (toolResultFor ex ctx tu).content = r) := by
  have hc : toolResultFor ex ctx tu = { tool_use_id := tu.id, content := strTake 50000 r } := by
    simp [toolResultFor, hf, hr]
  refine ⟨by rw [hc], by rw [hc], ?_, ?_⟩
  · rw [hc]
    exact strTake_length_le _ _
  · intro hle
    rw [hc]
    exact strTake_of_le r hle

/-- Witness for C6 at a concrete executor. -/
theorem agent_tool_result_truncation_witness :
    (toolResultFor exEcho ctx0 tuEcho).tool_use_id = tuEcho.id ∧
    (toolResultFor exEcho ctx0 tuEcho).content = strTake 50000 "tool output" ∧
    (toolResultFor exEcho ctx0 tuEcho).content.length ≤ 50000 ∧
    ("tool output".length ≤ 50000 → (toolResultFor exEcho ctx0 tuEcho).content = "tool output") :=
  agent_tool_result_truncation exEcho ctx0 tuEcho
    (fun _ _ => Except.ok "tool output") "tool output" rfl rfl

/-- C5 amended: when an executor raises, the run catches the exception and
records, for that block's id, the 50000-character truncation of the error
marker "Error: " followed by the exception's message: the text always begins
with the marker, contains the full message whenever marker plus message fit
within the 50000-character truncation bound, and the loop proceeds to the
next step. -/
theorem agent_executor_error {ι : Type} (ex : Executors ι) (ctx : AgentContext)
    (tu : ToolUseBlock ι) (f : ι → AgentContext → Except String String) (e : String)
    (hf : ex tu.name = some f) (he : f tu.input ctx = Except.error e) :
    (toolResultFor ex ctx tu).tool_use_id = tu.id ∧
    (toolResultFor ex ctx tu).content = strTake 50000 ("Error: " ++ e) ∧
    "Error: ".data <+: (toolResultFor ex ctx tu).content.data ∧
    (("Error: " ++ e).length ≤ 50000 →
      (toolResultFor ex ctx tu).content = "Error: " ++ e ∧
      e.data <:+: (toolResultFor ex ctx tu).content.data) ∧
    (∀ (script : Nat → List (ContentBlock ι)) (fuel : Nat) (calls : List Bool)
        (messages : List (Message ι)),
      toolUsesOf (script calls.length) ≠ [] →
      runLoop script ex ctx (fuel + 1) calls messages =
        runLoop script ex ctx fuel (calls ++ [true])
          (messages ++ stepMessages ex ctx (script calls.length))) := by
  have hc : toolResultFor ex ctx tu =
      { tool_use_id := tu.id, content := strTake 50000 ("Error: " ++ e) } := by
    simp [toolResultFor, hf, he]
  refine ⟨by rw [hc], by rw [hc], ?_, ?_, ?_⟩
  · rw [hc]
    show "Error: ".data <+: ("Error: " ++ e).data.take 50000
    rw [String.data_append, List.take_append_eq_append_take]
    have h7 : "Error: ".data.take 50000 = "Error: ".data := rfl
    rw [h7]
    exact List.prefix_append _ _
  · intro h50
    have heq : strTake 50000 ("Error: " ++ e) = "Error: " ++ e := strTake_of_le _ h50
    refine ⟨by rw [hc, heq], ?_⟩
    rw [hc, heq]
    exact ⟨"Error: ".data, [], by simp [String.data_append]⟩
  · intro script fuel calls messages hne
    rcases htu : toolUsesOf (script calls.length) with _ | ⟨a, l⟩
    · exact absurd htu hne
    · simp [runLoop, htu]

/-- Counterexample to C5 as stated: an executor raising a 50000-character
message yields a Tool Result whose text does NOT contain the exception's
message (the truncation to 50000 characters cuts it off). -/
theorem agent_executor_error_cx :
    ¬ bigErr.data <:+: (toolResultFor exBoom ctx0 tuBoom).content.data := by
  intro h
  have h1 : (toolResultFor exBoom ctx0 tuBoom).content.data =
      "Error: ".data ++ List.replicate 49993 'a' := by
    show ("Error: " ++ bigErr).data.take 50000 = _
    rw [String.data_append, List.take_append_eq_append_take]
    have h7 : "Error: ".data.take 50000 = "Error: ".data := rfl
    have hb : bigErr.data = List.replicate 50000 'a' := rfl
    have hn : 50000 - "Error: ".data.length = 49993 := rfl
    rw [h7, hb, hn, List.take_replicate]
    norm_num
  rw [h1] at h
  have hb : bigErr.data = List.replicate 50000 'a' := rfl
  rw [hb] at h
  obtain ⟨s, t, hst⟩ := h
  have hlen := congrArg List.length hst
  have h7 : ("Error: ".data).length = 7 := rfl
  simp only [List.length_append, List.length_replicate, h7] at hlen
  have hs : s.length = 0 := by omega
  have ht : t.length = 0 := by omega
  rw [List.length_eq_zero] at hs ht
  subst hs
  subst ht
  simp only [List.append_nil, List.nil_append] at hst
  have hhead := congrArg List.head? hst
  have ha : (List.replicate 50000 'a').head? = some 'a' := rfl
  have hE : ("Error: ".data ++ List.replicate 49993 'a').head? = some 'E' := rfl
  rw [ha, hE] at hhead
  exact absurd hhead (by decide)

/-- Witness for the amended C5 at a concrete raising executor. -/
theorem agent_executor_error_witness :
    (toolResultFor exKaput ctx0 tuBad).tool_use_id = tuBad.id ∧
    (toolResultFor exKaput ctx0 tuBad).content = strTake 50000 ("Error: " ++ "kaput") ∧
    "Error: ".data <+: (toolResultFor exKaput ctx0 tuBad).content.data ∧
    (("Error: " ++ "kaput").length ≤ 50000 →
      (toolResultFor exKaput ctx0 tuBad).content = "Error: " ++ "kaput" ∧
      "kaput".data <:+: (toolResultFor exKaput ctx0 tuBad).content.data) ∧
    (∀ (script : Nat → List (ContentBlock Unit)) (fuel : Nat) (calls : List Bool)
        (messages : List (Message Unit)),
      toolUsesOf (script calls.length) ≠ [] →
      runLoop script exKaput ctx0 (fuel + 1) calls messages =
        runLoop script exKaput ctx0 fuel (calls ++ [true])
          (messages ++ stepMessages exKaput ctx0 (script calls.length))) :=
  agent_executor_error exKaput ctx0 tuBad (fun _ _ => Except.error "kaput") "kaput" rfl rfl

/-- C2 amended: within the loop the transcript alternates user and assistant
turns (beginning with a user turn); when the step budget is exhausted, the
forced-answer request is appended as a second consecutive user turn, so the
final transcript does not alternate: it is an alternating, user-terminated
transcript followed by one further user-role message. -/
theorem agent_transcript_alternation {ι : Type} (script : Nat → List (ContentBlock ι))
    (ex : Executors ι) (ctx : AgentContext) (user_message : String) (N : Nat) :
    ((AgentService.run script ex ctx user_message N).calls.length ≤ N →
      List.Chain' (fun a b => a ≠ b)
        (rolesOf (AgentService.run script ex ctx user_message N).messages)) ∧
    ((AgentService.run script ex ctx user_message N).calls.length = N + 1 →
      ¬ List.Chain' (fun a b => a ≠ b)
          (rolesOf (AgentService.run script ex ctx user_message N).messages) ∧
      ∃ pre, (AgentService.run script ex ctx user_message N).messages =
          pre ++ [{ role := Role.user, content := MsgContent.text forcedAnswerPrompt }] ∧
        List.Chain' (fun a b => a ≠ b) (rolesOf pre) ∧
        (rolesOf pre).getLast? = some Role.user) := by
  have hinit1 : List.Chain' (fun a b => a ≠ b)
      (rolesOf (ι := ι)
        [{ role := Role.user, content := MsgContent.text (initialUserContent ctx user_message) }]) := by
    simp [rolesOf, List.chain'_singleton]
  have hinit2 : (rolesOf (ι := ι)
      [{ role := Role.user, content := MsgContent.text (initialUserContent ctx user_message) }]).getLast? =
      some Role.user := rfl
  have hmr := runLoop_roles script ex ctx N []
    [{ role := Role.user, content := MsgContent.text (initialUserContent ctx user_message) }]
    hinit1 hinit2
  have hrw : AgentService.run script ex ctx user_message N =
      runLoop script ex ctx N []
        [{ role := Role.user, content := MsgContent.text (initialUserContent ctx user_message) }] := rfl
  constructor
  · intro hle
    rw [hrw] at hle ⊢
    rcases hmr with ⟨h1, _, _⟩ | ⟨pre, h1, h2, h3, h4⟩
    · exact h1
    · exfalso
      simp only [List.length_nil, Nat.zero_add] at h4
      omega
  · intro heq
    rw [hrw] at heq
    rcases hmr with ⟨_, _, h3⟩ | ⟨pre, h1, h2, h3, h4⟩
    · exfalso
      simp only [List.length_nil, Nat.zero_add] at h3
      omega
    · constructor
      · rw [hrw, h1]
        intro hch
        rw [rolesOf_append, List.chain'_append] at hch
        obtain ⟨_, _, hcmp⟩ := hch
        exact hcmp Role.user (Option.mem_def.mpr h3) Role.user (Option.mem_def.mpr rfl) rfl
      · exact ⟨pre, by rw [hrw]; exact h1, h2, h3⟩

/-- Counterexample to C2 as stated: with a budget of 1 and a script that
always requests a tool, the final transcript's roles are
user, assistant, user, user — not alternating after the forced-answer
request is appended. -/
theorem agent_transcript_alternation_cx :
    ¬ List.Chain' (fun a b => a ≠ b)
        (rolesOf (AgentService.run scriptCx exNone ctx0 "hello" 1).messages) := by
  have hroles : rolesOf (AgentService.run scriptCx exNone ctx0 "hello" 1).messages =
      [Role.user, Role.assistant, Role.user, Role.user] := rfl
  rw [hroles]
  simp [List.chain'_cons, List.chain'_singleton]

/-- Witness for the amended C2 at a concrete run that exhausts its budget. -/
theorem agent_transcript_alternation_witness :
    ((AgentService.run scriptCx exNone ctx0 "hello" 1).calls.length ≤ 1 →
      List.Chain' (fun a b => a ≠ b)
        (rolesOf (AgentService.run scriptCx exNone ctx0 "hello" 1).messages)) ∧
    ((AgentService.run scriptCx exNone ctx0 "hello" 1).calls.length = 1 + 1 →
      ¬ List.Chain' (fun a b => a ≠ b)
          (rolesOf (AgentService.run scriptCx exNone ctx0 "hello" 1).messages) ∧
      ∃ pre, (AgentService.run scriptCx exNone ctx0 "hello" 1).messages =
          pre ++ [{ role := Role.user, content := MsgContent.text forcedAnswerPrompt }] ∧
        List.Chain' (fun a b => a ≠ b) (rolesOf pre) ∧
        (rolesOf pre).getLast? = some Role.user) :=
  agent_transcript_alternation scriptCx exNone ctx0 "hello" 1

/-!
Part 6: claim theorems about the agenda handlers and the database layer.
-/

/-- C7: `/pillar agenda finalize` for a user with no stored Google credential
responds with the loading message followed by an authorization prompt
carrying the generated OAuth link, and leaves the database (in particular
every agenda item's inclusion flag) unchanged — `mark_agenda_items_included`
is never reached. -/
theorem finalize_unauthenticated (validOracle : String → Bool)
    (genAgenda : List AgendaItem → String) (createDoc : String → String → Option Doc)
    (authUrlGen : String → String → String) (channel_id user_id : String) (db : DBState)
    (h : get_google_token db user_id = none) :
    handle_agenda validOracle genAgenda createDoc authUrlGen channel_id user_id
        "finalize" db =
      ([Resp.loading "Generating Monday meeting agenda",
        Resp.authPrompt (authUrlGen user_id "http://localhost:8080/oauth/callback")],
       db) := by
  have hauth : is_user_authenticated validOracle db user_id = false := by
    unfold is_user_authenticated
    rw [h]
  have hp : pySplitMax1 "finalize" = ["finalize"] := rfl
  have hl : pyLower "finalize" = "finalize" := rfl
  simp [handle_agenda, hp, hl, hauth]

/-- Witness for C7: a fresh database stores no credential for any user. -/
theorem finalize_unauthenticated_witness :
    handle_agenda (fun _ => true) (fun _ => "agenda") (fun _ _ => none)
        (fun u r => u ++ r) "C1" "U1" "finalize" emptyDB =
      ([Resp.loading "Generating Monday meeting agenda",
        Resp.authPrompt ((fun u r => u ++ r) "U1" "http://localhost:8080/oauth/callback")],
       emptyDB) :=
  finalize_unauthenticated (fun _ => true) (fun _ => "agenda") (fun _ _ => none)
    (fun u r => u ++ r) "C1" "U1" emptyDB rfl

/-- C8: an add-agenda input whose category is outside the declared enum is
stored under a fixed default category rather than rejected: the agent tool
executor coerces it to "Other", and the slash-command add path maps any
unrecognised category token to "Other Business". -/
theorem agenda_category_default :
    (∀ (tool_input : AddInput) (ctx : AgentContext) (db : DBState) (c : String),
      tool_input.category = some c →
      valid_categories.contains c = false →
      tool_input.content.getD "" ≠ "" →
      execute_add_to_agenda tool_input ctx db =
        ("Added to Monday agenda under \x27Other\x27: " ++ tool_input.content.getD "",
         add_agenda_item db (ctx.user_id.getD "unknown") (ctx.channel_id.getD "unknown")
           "Other" (tool_input.content.getD ""))) ∧
    (∀ (validOracle : String → Bool) (genAgenda : List AgendaItem → String)
        (createDoc : String → String → Option Doc) (authUrlGen : String → String → String)
        (channel_id user_id args sub_args category_input content : String) (db : DBState),
      pySplitMax1 args = ["add", sub_args] →
      pySplitMax1 sub_args = [category_input, content] →
      category_map.lookup (pyLower category_input) = none →
      handle_agenda validOracle genAgenda createDoc authUrlGen channel_id user_id args db =
        ([Resp.agendaConfirmation "Other Business" content],
         add_agenda_item db user_id channel_id "Other Business" content)) := by
  constructor
  · intro ti ctx db c hc hval hcont
    have hval2 : ¬ c ∈ valid_categories := by simpa using hval
    simp [execute_add_to_agenda, hc, hval2, hcont]
  · intro vo ga cd au channel_id user_id args sa ci cont db h1 h2 h3
    have hladd : pyLower "add" = "add" := rfl
    simp [handle_agenda, h1, h2, hladd, slashCategory, h3]

/-- Witness for C8 on both paths at concrete out-of-enum categories. -/
theorem agenda_category_default_witness :
    (execute_add_to_agenda ⟨some "Talk", some "Bogus"⟩ ctx0 emptyDB =
      ("Added to Monday agenda under \x27Other\x27: " ++ "Talk",
       add_agenda_item emptyDB "unknown" "unknown" "Other" "Talk")) ∧
    (handle_agenda (fun _ => false) (fun _ => "") (fun _ _ => none) (fun _ _ => "")
        "C1" "U1" "add weird My item" emptyDB =
      ([Resp.agendaConfirmation "Other Business" "My item"],
       add_agenda_item emptyDB "U1" "C1" "Other Business" "My item")) :=
  ⟨agenda_category_default.1 ⟨some "Talk", some "Bogus"⟩ ctx0 emptyDB "Bogus"
      rfl (by decide) (by decide),
   agenda_category_default.2 (fun _ => false) (fun _ => "") (fun _ _ => none)
      (fun _ _ => "") "C1" "U1" "add weird My item" "weird My item" "weird" "My item"
      emptyDB rfl rfl (by decide)⟩

/-- C9: across every operation exposed by the database layer, agenda items
are never deleted and keep their identifying fields; an item's inclusion
flag never reverts from true to false; and any item whose id did not exist
before the operation carries a false inclusion flag (items are created
pending). -/
theorem agenda_flag_monotonic (op : DBOp) (db : DBState) :
    (∀ it ∈ db.agenda.items, ∃ it', it' ∈ (applyOp op db).agenda.items ∧
      it'.id = it.id ∧ it'.user_id = it.user_id ∧ it'.channel_id = it.channel_id ∧
      it'.category = it.category ∧ it'.content = it.content ∧
      (it.included_in_doc = true → it'.included_in_doc = true)) ∧
    (∀ it' ∈ (applyOp op db).agenda.items,
      (∃ it ∈ db.agenda.items, it.id = it'.id) ∨ it'.included_in_doc = false) ∧
    db.agenda.items.length ≤ (applyOp op db).agenda.items.length := by
  cases op with
  | initDb =>
      exact ⟨fun it hit => ⟨it, hit, rfl, rfl, rfl, rfl, rfl, fun hi => hi⟩,
        fun it' hit' => Or.inl ⟨it', hit', rfl⟩, Nat.le_refl _⟩
  | saveUserLastActive u now =>
      exact ⟨fun it hit => ⟨it, hit, rfl, rfl, rfl, rfl, rfl, fun hi => hi⟩,
        fun it' hit' => Or.inl ⟨it', hit', rfl⟩, Nat.le_refl _⟩
  | saveGoogleToken u tok =>
      exact ⟨fun it hit => ⟨it, hit, rfl, rfl, rfl, rfl, rfl, fun hi => hi⟩,
        fun it' hit' => Or.inl ⟨it', hit', rfl⟩, Nat.le_refl _⟩
  | cacheSummary ch ps pe s =>
      exact ⟨fun it hit => ⟨it, hit, rfl, rfl, rfl, rfl, rfl, fun hi => hi⟩,
        fun it' hit' => Or.inl ⟨it', hit', rfl⟩, Nat.le_refl _⟩
  | addAgendaItem u ch cat c =>
      refine ⟨?_, ?_, ?_⟩
      · intro it hit
        refine ⟨it, ?_, rfl, rfl, rfl, rfl, rfl, fun hi => hi⟩
        show it ∈ db.agenda.items ++ [_]
        exact List.mem_append_left _ hit
      · intro it' hit'
        have hm : it' ∈ db.agenda.items ++
            [{ id := db.agenda.nextId, user_id := u, channel_id := ch,
               category := cat, content := c, included_in_doc := false }] := hit'
        rcases List.mem_append.mp hm with hmem | hmem
        · exact Or.inl ⟨it', hmem, rfl⟩
        · right
          have heq : it' =
              { id := db.agenda.nextId, user_id := u, channel_id := ch,
                category := cat, content := c, included_in_doc := false } := by
            simpa using hmem
          rw [heq]
      · show db.agenda.items.length ≤ (db.agenda.items ++ [_]).length
        simp
  | markAgendaItemsIncluded ids =>
      refine ⟨?_, ?_, ?_⟩
      · intro it hit
        by_cases hc : ids.contains it.id = true
        · refine ⟨{ it with included_in_doc := true }, ?_, rfl, rfl, rfl, rfl, rfl,
            fun _ => rfl⟩
          show _ ∈ db.agenda.items.map
            (fun i => if ids.contains i.id then { i with included_in_doc := true } else i)
          have hb : (fun i => if ids.contains i.id then
              { i with included_in_doc := true } else i) it =
              { it with included_in_doc := true } := if_pos hc
          rw [← hb]
          exact List.mem_map_of_mem _ hit
        · refine ⟨it, ?_, rfl, rfl, rfl, rfl, rfl, fun hi => hi⟩
          show _ ∈ db.agenda.items.map
            (fun i => if ids.contains i.id then { i with included_in_doc := true } else i)
          have hb : (fun i => if ids.contains i.id then
              { i with included_in_doc := true } else i) it = it := if_neg hc
          rw [← hb]
          exact List.mem_map_of_mem _ hit
      · intro it' hit'
        have hm : it' ∈ db.agenda.items.map
            (fun i => if ids.contains i.id then { i with included_in_doc := true } else i) :=
          hit'
        rcases List.mem_map.mp hm with ⟨i, hi, hfi⟩
        left
        refine ⟨i, hi, ?_⟩
        rw [← hfi]
        by_cases hc : ids.contains i.id = true
        · rw [if_pos hc]
        · rw [if_neg hc]
      · show db.agenda.items.length ≤ (db.agenda.items.map
          (fun i => if ids.contains i.id then { i with included_in_doc := true } else i)).length
        simp

/-- Witness for C9 at a concrete marking operation on a one-item database. -/
theorem agenda_flag_monotonic_witness :
    (∀ it ∈ dbPipeline.agenda.items, ∃ it',
      it' ∈ (applyOp (DBOp.markAgendaItemsIncluded [1]) dbPipeline).agenda.items ∧
      it'.id = it.id ∧ it'.user_id = it.user_id ∧ it'.channel_id = it.channel_id ∧
      it'.category = it.category ∧ it'.content = it.content ∧
      (it.included_in_doc = true → it'.included_in_doc = true)) ∧
    (∀ it' ∈ (applyOp (DBOp.markAgendaItemsIncluded [1]) dbPipeline).agenda.items,
      (∃ it ∈ dbPipeline.agenda.items, it.id = it'.id) ∨ it'.included_in_doc = false) ∧
    dbPipeline.agenda.items.length ≤
      (applyOp (DBOp.markAgendaItemsIncluded [1]) dbPipeline).agenda.items.length :=
  agenda_flag_monotonic (DBOp.markAgendaItemsIncluded [1]) dbPipeline

/-!
Part 7: the view executor consults only the four schema categories (C10).
-/

theorem lookup_map_update (acc : List (String × List AgendaItem)) (k : String)
    (it : AgendaItem) (c : String) :
    (acc.map (fun p => if p.1 = k then (p.1, p.2 ++ [it]) else p)).lookup c =
      if k = c then (acc.lookup c).map (fun g => g ++ [it]) else acc.lookup c := by
  induction acc with
  | nil => by_cases h : k = c <;> simp [h]
  | cons p ps ih =>
      obtain ⟨pk, pv⟩ := p
      simp only [List.map_cons]
      by_cases hpk : pk = k
      · subst hpk
        by_cases hpc : pk = c
        · subst hpc
          simp [List.lookup_cons]
        · have hb : (c == pk) = false := beq_eq_false_iff_ne.mpr (fun hh => hpc hh.symm)
          simp [List.lookup_cons, hpc, ih, hb]
      · by_cases hpc : pk = c
        · subst hpc
          have hkc : ¬ k = pk := fun hh => hpk hh.symm
          simp [List.lookup_cons, hpk, hkc]
        · have hb : (c == pk) = false := beq_eq_false_iff_ne.mpr (fun hh => hpc hh.symm)
          simp [List.lookup_cons, hpk, hpc, ih, hb]

theorem any_key_lookup (acc : List (String × List AgendaItem)) (k : String) :
    (acc.any (fun p => p.1 = k)) = (acc.lookup k).isSome := by
  induction acc with
  | nil => simp
  | cons p ps ih =>
      obtain ⟨pk, pv⟩ := p
      by_cases h : pk = k
      · simp [List.lookup_cons, h, ih]
      · have hb : (k == pk) = false := beq_eq_false_iff_ne.mpr (fun hh => h hh.symm)
        simp [List.lookup_cons, h, ih, hb]

theorem groupBy_go_lookup (items : List AgendaItem) :
    ∀ (acc : List (String × List AgendaItem)) (c : String),
      (items.foldl (fun acc it =>
        if acc.any (fun p => p.1 = it.category) then
          acc.map (fun p => if p.1 = it.category then (p.1, p.2 ++ [it]) else p)
        else acc ++ [(it.category, [it])]) acc).lookup c =
      (match acc.lookup c with
       | some g => some (g ++ items.filter (fun it => it.category = c))
       | none =>
           match items.filter (fun it => it.category = c) with
           | [] => none
           | l => some l) := by
  induction items with
  | nil =>
      intro acc c
      cases hl : acc.lookup c <;> simp [hl]
  | cons it rest ih =>
      intro acc c
      simp only [List.foldl_cons]
      rw [ih]
      by_cases hac : acc.any (fun p => p.1 = it.category) = true
      · rw [if_pos hac, lookup_map_update]
        rw [any_key_lookup] at hac
        by_cases hc : it.category = c
        · subst hc
          obtain ⟨g, hg⟩ := Option.isSome_iff_exists.mp hac
          rw [hg]
          simp [List.filter_cons]
        · rw [if_neg hc]
          cases hl : acc.lookup c <;> simp [hl, List.filter_cons, hc]
      · rw [if_neg hac, List.lookup_append]
        rw [any_key_lookup] at hac
        have hnone : acc.lookup it.category = none := by
          cases hl : acc.lookup it.category
          · rfl
          · rw [hl] at hac
            simp at hac
        by_cases hc : it.category = c
        · subst hc
          rw [hnone]
          simp [List.filter_cons]
        · have hcs : ¬ c = it.category := fun hh => hc hh.symm
          have hb : (c == it.category) = false := beq_eq_false_iff_ne.mpr hcs
          cases hl : acc.lookup c <;>
            simp [hl, List.lookup_cons, List.filter_cons, hc, hcs, hb]

theorem groupByCategory_lookup (items : List AgendaItem) (c : String) :
    (groupByCategory items).lookup c =
      (match items.filter (fun it => it.category = c) with
       | [] => none
       | l => some l) := by
  unfold groupByCategory
  rw [groupBy_go_lookup]
  simp

theorem lookup_groupBy_filter (items : List AgendaItem) (c : String)
    (hc : valid_categories.contains c = true) :
    (groupByCategory (items.filter
        (fun it => valid_categories.contains it.category))).lookup c =
      (groupByCategory items).lookup c := by
  rw [groupByCategory_lookup, groupByCategory_lookup]
  have hcmem : c ∈ valid_categories := by simpa using hc
  have hff : (items.filter (fun it => valid_categories.contains it.category)).filter
      (fun it => it.category = c) = items.filter (fun it => it.category = c) := by
    rw [List.filter_filter]
    apply List.filter_congr
    intro x _
    by_cases hxc : x.category = c
    · simp [hxc, hcmem]
    · simp [hxc]
  rw [hff]

theorem agendaViewLines_filter (items : List AgendaItem) :
    agendaViewLines (items.filter (fun it => valid_categories.contains it.category)) =
      agendaViewLines items := by
  unfold agendaViewLines
  congr 1
  simp only [List.foldl_cons, List.foldl_nil]
  rw [lookup_groupBy_filter items "Investment Decisions" (by decide),
    lookup_groupBy_filter items "Pipeline" (by decide),
    lookup_groupBy_filter items "Portfolio Updates" (by decide),
    lookup_groupBy_filter items "Other" (by decide)]

/-- C10: for a non-empty pending list, `execute_view_agenda` renders exactly
the items whose stored category is one of the four schema names
"Investment Decisions", "Pipeline", "Portfolio Updates", "Other" (its output
equals the rendering of the pending list restricted to those categories);
"Pipeline Review" and "Portfolio Company Updates" — the categories the slash
add path stores for the `pipeline` and `portfolio` tokens — are not among
them, so such a pending item is silently omitted even though
`get_pending_agenda_items` returns it, as the concrete `dbPipeline`
conjuncts exhibit. -/
theorem view_agenda_category_filter (db : DBState)
    (h : get_pending_agenda_items db ≠ []) :
    execute_view_agenda db =
      String.intercalate "\n"
        (agendaViewLines ((get_pending_agenda_items db).filter
          (fun it => valid_categories.contains it.category))) ∧
    valid_categories.contains "Pipeline Review" = false ∧
    valid_categories.contains "Portfolio Company Updates" = false ∧
    slashCategory "pipeline" = "Pipeline Review" ∧
    slashCategory "portfolio" = "Portfolio Company Updates" ∧
    execute_view_agenda dbPipeline = "Current Monday Investment Review Agenda:\n" ∧
    (get_pending_agenda_items dbPipeline).map (fun it => it.content) =
      ["Intro from Partner X"] := by
  refine ⟨?_, by decide, by decide, rfl, rfl, rfl, rfl⟩
  unfold execute_view_agenda
  rw [agendaViewLines_filter]
  have hne : (get_pending_agenda_items db).isEmpty = false := by
    cases hl : get_pending_agenda_items db with
    | nil => exact absurd hl h
    | cons a l => rfl
  simp [hne]

/-- Witness for C10 at the concrete one-item database. -/
theorem view_agenda_category_filter_witness :
    execute_view_agenda dbPipeline =
      String.intercalate "\n"
        (agendaViewLines ((get_pending_agenda_items dbPipeline).filter
          (fun it => valid_categories.contains it.category))) ∧
    valid_categories.contains "Pipeline Review" = false ∧
    valid_categories.contains "Portfolio Company Updates" = false ∧
    slashCategory "pipeline" = "Pipeline Review" ∧
    slashCategory "portfolio" = "Portfolio Company Updates" ∧
    execute_view_agenda dbPipeline = "Current Monday Investment Review Agenda:\n" ∧
    (get_pending_agenda_items dbPipeline).map (fun it => it.content) =
      ["Intro from Partner X"] :=
  view_agenda_category_filter dbPipeline (by decide)
